import Mathlib

/-!
Verification of the financial RAG pipeline (ingest.py, utils.py, query.py).

Texts are modelled as `List Char`.  Machine floats only ever appear as opaque
embedding-vector payloads, so vector entries are modelled as rationals; no
claim inspects a vector entry other than the zero vector.  The external
collaborators (OpenAI embedding / chat services, the FAISS index search) are
modelled as explicit function parameters ("oracles"): every piece of logic
that lives in the repository is translated directly from the Python source.
-/

namespace FinRag

/-- Python `str.strip()` (whitespace strip on both ends). -/
def pyStrip (l : List Char) : List Char :=
  ((l.dropWhile Char.isWhitespace).reverse.dropWhile Char.isWhitespace).reverse

/-- Python substring containment `needle in haystack`. -/
def pyContains (needle : List Char) : List Char → Bool
  | [] => needle.isPrefixOf ([] : List Char)
  | c :: rest => needle.isPrefixOf (c :: rest) || pyContains needle rest

/-- Python `s.split(sep)` for a one-character separator. -/
def pySplitOnChar (sep : Char) : List Char → List (List Char)
  | [] => [[]]
  | c :: rest =>
    match pySplitOnChar sep rest with
    | [] => [[]]
    | h :: t => if c = sep then [] :: h :: t else (c :: h) :: t

/-- Helper for Python `text.split("\n\n")`: returns the first segment and the
remaining segments, scanning left to right for non-overlapping `"\n\n"`. -/
def splitParasGo : List Char → List Char × List (List Char)
  | [] => ([], [])
  | '\n' :: '\n' :: rest =>
    let r := splitParasGo rest
    ([], r.1 :: r.2)
  | c :: rest =>
    let r := splitParasGo rest
    (c :: r.1, r.2)

/-- Python `text.split("\n\n")`. -/
def pySplitParas (l : List Char) : List (List Char) :=
  (splitParasGo l).1 :: (splitParasGo l).2

/-- Clamp a Python slice bound to an actual list position
(negative indices count from the end). -/
def pyIndex (len : Nat) (i : Int) : Nat :=
  if i < 0 then (len + i).toNat else min i.toNat len

/-- Python `l[s:e]`. -/
def pySlice (l : List Char) (s e : Int) : List Char :=
  (l.take (pyIndex l.length e)).drop (pyIndex l.length s)

/-! ## utils.py : chunk_text -/

/-- The `while start < text_len` loop of `chunk_text` (utils.py lines
120-128), made total with an explicit fuel parameter.  The scan position
`start` advances by `chunk_size - overlap` per iteration (as a Python int,
hence `Int` here); each iteration emits `text[start:end].strip()`.
`none` means the fuel ran out while the loop guard was still true. -/
def chunkTextLoop (text : List Char) (chunkSize overlap : Nat) :
    Nat → Int → List (List Char) → Option (List (List Char))
  | 0, start, acc =>
    if start < (text.length : Int) then none else some acc.reverse
  | fuel + 1, start, acc =>
    if start < (text.length : Int) then
      let endIdx : Int := min (start + (chunkSize : Int)) (text.length : Int)
      let chunk := pySlice text start endIdx
      chunkTextLoop text chunkSize overlap fuel
        (start + (chunkSize : Int) - (overlap : Int)) (pyStrip chunk :: acc)
    else some acc.reverse

/-- Models `chunk_text(text, chunk_size, overlap)` (utils.py lines 109-130).
When `overlap < chunk_size` the loop makes at most `text.length` iterations,
so fuel `text.length` is enough and the `Option` never degrades to `none`. -/
def chunk_text (text : List Char) (chunkSize overlap : Nat) : List (List Char) :=
  (chunkTextLoop text chunkSize overlap text.length 0 []).getD []

/-! ## utils.py : chunk_by_sections -/

/-- One step of the paragraph-accumulation loop of `chunk_by_sections`
(utils.py lines 158-177).  State is `(chunks, current_chunk)`.  The
`is_section_header` test computed in the source is dead code (its value is
never used), so it is not modelled.  `current_chunk[-overlap:]` with
`overlap = 0` is the whole string in Python, which the inner `if` mirrors. -/
def chunkBySectionsStep (chunkSize overlap : Nat)
    (st : List (List Char) × List Char) (paragraph : List Char) :
    List (List Char) × List Char :=
  let p := pyStrip paragraph
  if p = [] then st
  else
    let chunks := st.1
    let current := st.2
    if chunkSize < current.length + p.length ∧ current ≠ [] then
      let overlapText :=
        if overlap < current.length then
          (if overlap = 0 then current else current.drop (current.length - overlap))
        else current
      (chunks ++ [pyStrip current], overlapText ++ ('\n' :: '\n' :: p))
    else
      (chunks, if current = [] then p else current ++ ('\n' :: '\n' :: p))

/-- Models `chunk_by_sections(text, chunk_size, overlap)` (utils.py lines 133-195):
paragraph accumulation, oversize re-split through `chunk_text`, and the
fall-back to plain `chunk_text` when no semantic chunks were produced. -/
def chunk_by_sections (text : List Char) (chunkSize overlap : Nat) :
    List (List Char) :=
  let paragraphs := pySplitParas text
  let st := paragraphs.foldl (chunkBySectionsStep chunkSize overlap) ([], [])
  let chunks := if st.2 ≠ [] then st.1 ++ [pyStrip st.2] else st.1
  let finalChunks := chunks.flatMap
    (fun c => if chunkSize * 2 < c.length then chunk_text c chunkSize overlap else [c])
  if finalChunks = [] then chunk_text text chunkSize overlap else finalChunks

/-! ## Shared data model -/

/-- One value of the metadata store `meta.json`: the dictionary
`{source, chunk_index, text, year, report_year}` built by ingest.py
(lines 139-148) and consumed by query.py.  `year` is always written by
ingestion, so the defensive `chunk.get('year', 0)` of query.py line 113
reads exactly this field. -/
structure Chunk where
  source : List Char
  chunk_index : Nat
  text : List Char
  year : Int
  report_year : Int
deriving DecidableEq, Repr

/-! ## ingest.py -/

/-- Scanner for the regex `20\d{2}`: leftmost match of a four-character run
`2`, `0`, digit, digit, returned as the integer value of those four digits
(shared by `extract_year_from_filename` and `extract_year_from_query`). -/
def searchYear20 : List Char → Option Int
  | '2' :: '0' :: c :: d :: rest =>
    if c.isDigit ∧ d.isDigit then
      some (2000 + 10 * ((c.toNat : Int) - 48) + ((d.toNat : Int) - 48))
    else searchYear20 ('0' :: c :: d :: rest)
  | _ :: rest => searchYear20 rest
  | [] => none
termination_by l => l.length

/-- Models `extract_year_from_filename(filename)` (ingest.py lines 16-30):
first `20\d{2}` match, defaulting to `0` when no year is found. -/
def extract_year_from_filename (filename : List Char) : Int :=
  (searchYear20 filename).getD 0

/-- An embedding vector; float entries are modelled as rationals. -/
abbrev Vec := List ℚ

/-- The zero vector substituted for a failed embedding batch
(`[0.0] * 3072`, ingest.py line 56). -/
def zeroVec3072 : Vec := List.replicate 3072 (0 : ℚ)

/-- The batch loop of `embed_texts` (ingest.py lines 43-57).  `embedBatch`
models `client.embeddings.create` for one batch: `none` is a raised
exception, `some rs` a response whose rows are `rs`.  A failed batch
contributes one `zeroVec3072` per text of the batch.  Python raises
`ValueError` on `range(0, n, 0)`; the `batchSize = 0` guard returns `[]`
in that (never exercised) error case so the recursion is well founded. -/
def embedTextsGo (embedBatch : List (List Char) → Option (List Vec))
    (batchSize : Nat) : List (List Char) → List Vec
  | [] => []
  | t :: ts =>
    if batchSize = 0 then []
    else
      let batch := (t :: ts).take batchSize
      let rest := (t :: ts).drop batchSize
      (match embedBatch batch with
       | some rs => rs
       | none => batch.map fun _ => zeroVec3072) ++ embedTextsGo embedBatch batchSize rest
termination_by ts => ts.length
decreasing_by
  simp only [List.length_drop, List.length_cons]
  omega

/-- Models `embed_texts(texts, batch_size=100)` (ingest.py lines 33-58). -/
def embed_texts (embedBatch : List (List Char) → Option (List Vec))
    (texts : List (List Char)) (batchSize : Nat := 100) : List Vec :=
  embedTextsGo embedBatch batchSize texts

/-- Models `build_index(embeddings, ids, ...)` (ingest.py lines 61-77):
`IndexFlatL2.add` appends every embedding row in order, and the metadata
mapping is serialised as given.  The persisted pair is modelled as the
row list together with the insertion-ordered key/value list. -/
def build_index (embeddings : List Vec) (ids : List (List Char × Chunk)) :
    List Vec × List (List Char × Chunk) :=
  (embeddings, ids)

/-- One source PDF as the ingestion main block sees it: its filename and
the result of `extract_text_and_tables_from_pdf` (`none` models the
extraction raising, in which case the document is skipped). -/
structure DocInput where
  fname : List Char
  extracted : Option (List Char)

/-- State threaded through the ingestion main block (ingest.py lines
83-126): `all_chunks`, the metadata entries keyed by decimal-string id in
insertion order, and `id_counter`. -/
structure IngestState where
  all_chunks : List (List Char)
  metadata : List (List Char × Chunk)
  id_counter : Nat

/-- The `for i, c in enumerate(chunks)` loop of ingest.py lines 109-120 for
one document: entry `i` gets id `str(counter + i)`, `chunk_index i`, and
text `c[:4000]`. -/
def mkDocMeta (fname : List Char) (year : Int) :
    Nat → Nat → List (List Char) → List (List Char × Chunk)
  | _, _, [] => []
  | counter, i, c :: rest =>
    ((toString counter).toList,
      ⟨fname, i, c.take 4000, year, year⟩) :: mkDocMeta fname year (counter + 1) (i + 1) rest

/-- The per-document ingestion fold of the ingest.py main block: failed
extraction skips the document, otherwise `chunk_by_sections(text, 1200,
300)` is appended to the corpus with sequential ids. -/
def ingestStep (st : IngestState) (doc : DocInput) : IngestState :=
  match doc.extracted with
  | none => st
  | some text =>
    let chunks := chunk_by_sections text 1200 300
    let year := extract_year_from_filename doc.fname
    { all_chunks := st.all_chunks ++ chunks
      metadata := st.metadata ++ mkDocMeta doc.fname year st.id_counter 0 chunks
      id_counter := st.id_counter + chunks.length }

/-- The whole ingestion scan (ingest.py main block). -/
def ingestDocs (docs : List DocInput) : IngestState :=
  docs.foldl ingestStep ⟨[], [], 0⟩

/-! ## query.py : retrieve -/

/-- Python truthiness of the `target_year` argument (`if target_year:`):
`None` and `0` are falsy, every other int truthy. -/
def pyTruthy : Option Int → Bool
  | none => false
  | some y => y != 0

/-- The `for idx in I[0]` walk of `retrieve` (query.py lines 105-124).
`meta` models the loaded `meta.json` keyed by `str(int(idx))`; a `none`
lookup is `sid not in meta` (for example the `-1` padding FAISS returns
when the index holds fewer vectors than were requested).  The
`len(results) >= k` break is checked whenever the id resolved, appended
or not, exactly as in the source. -/
def retrieveLoop (meta : Int → Option Chunk) (targetYear : Option Int) (k : Nat) :
    List Int → List Chunk → List Chunk
  | [], results => results
  | idx :: rest, results =>
    match meta idx with
    | none => retrieveLoop meta targetYear k rest results
    | some chunk =>
      let results' :=
        if pyTruthy targetYear then
          let y := targetYear.getD 0
          if chunk.year = y then results ++ [chunk]
          else if (chunk.year - y).natAbs ≤ 1 then results ++ [chunk]
          else results
        else results ++ [chunk]
      if k ≤ results'.length then results'
      else retrieveLoop meta targetYear k rest results'

/-- Models `retrieve(query, k, target_year)` (query.py lines 84-126).  The index
search over the embedded query is modelled by `search`, mapping the
requested neighbor count `search_k` to the id list `I[0]` in the order
FAISS returned it (non-decreasing distance). -/
def retrieve (search : Nat → List Int) (meta : Int → Option Chunk)
    (k : Nat) (targetYear : Option Int) : List Chunk :=
  let searchK := if pyTruthy targetYear then k * 3 else k
  let ids := search searchK
  (retrieveLoop meta targetYear k ids []).take k

/-- Models `extract_year_from_query(query)` (query.py lines 129-143): first
`20\d{2}` match or `None`. -/
def extract_year_from_query (query : List Char) : Option Int :=
  searchYear20 query

/-- The single acceptance test applied by the `retrieve` walk to a resolved
chunk: with a truthy target year the chunk is kept iff its year matches
exactly or is within one year; otherwise every resolved chunk is kept. -/
def retrieveAccepts (targetYear : Option Int) (c : Chunk) : Bool :=
  if pyTruthy targetYear then
    (c.year = targetYear.getD 0) || (c.year - targetYear.getD 0).natAbs ≤ 1
  else true

/-- The in-order list of searched neighbors that resolve in the metadata
and pass the year filter; `retrieve` returns its first `k` elements. -/
def acceptedChunks (meta : Int → Option Chunk) (targetYear : Option Int)
    (ids : List Int) : List Chunk :=
  ids.filterMap fun idx =>
    (meta idx).bind fun c => if retrieveAccepts targetYear c then some c else none

/-! ## query.py : sub-question answering -/

/-- The apostrophe character, used by several prompt texts and by the
failure sentinel. -/
def aposC : Char := Char.ofNat 39

/-- Models `PROMPT_TEMPLATE.format(passages=..., question=...)` (query.py lines
18-38). -/
def promptTemplate (passages question : List Char) : List Char :=
  ("\nYou are a helpful financial analyst assistant. Use only the provided source passages to answer the user").toList
  ++ [aposC]
  ++ ("s question. \nCite sources using numbered references like [1], [2], [3] etc. \n\nIMPORTANT: When answering financial questions, provide comprehensive, detailed answers that include:\n- Specific numbers and figures from the passages\n- Year-over-year comparisons when available\n- Key financial metrics and ratios\n- Detailed breakdowns by segment or category\n- Tables or structured data when relevant\n- All relevant financial data found in the passages\n\nIf the answer is not in the passages, say \"I don").toList
  ++ [aposC]
  ++ ("t know based on the provided documents.\"\n\nPassages:\n").toList
  ++ passages
  ++ ("\n\nQuestion: ").toList
  ++ question
  ++ ("\n\nProvide a comprehensive, detailed answer that extracts all relevant financial information from the passages. Use numbered citations [1], [2], [3] etc. in your answer. Do NOT include a \"Sources:\" section at the end - just provide the answer with inline citations.\n").toList

/-- Value of a run of decimal digits, as `int()` computes it. -/
def digitsToNat (ds : List Char) : Nat :=
  ds.foldl (fun n c => 10 * n + (c.toNat - 48)) 0

/-- Models `re.findall(r'\[(\d+)\]', answer)` followed by `int` (query.py lines
326-327): scan left to right for non-overlapping `[digits]` runs and
return the numeric values in order. -/
def findMarkers : List Char → List Nat
  | [] => []
  | c :: rest =>
    if c = '[' then
      match h : rest.dropWhile Char.isDigit with
      | ']' :: rest2 =>
        if rest.takeWhile Char.isDigit = [] then findMarkers rest
        else digitsToNat (rest.takeWhile Char.isDigit) :: findMarkers rest2
      | _ => findMarkers rest
    else findMarkers rest
termination_by l => l.length
decreasing_by
  · simp only [List.length_cons]; omega
  · have h2 : (rest.dropWhile Char.isDigit).length ≤ rest.length :=
      (List.dropWhile_suffix Char.isDigit).length_le
    rw [h] at h2
    simp only [List.length_cons] at h2 ⊢
    omega
  · simp only [List.length_cons]; omega
  · simp only [List.length_cons]; omega

/-- The citation string `f"[{num}] {chunk['source']}, chunk
{chunk['chunk_index']}"` (query.py line 333). -/
def mkCitation (num : Nat) (c : Chunk) : List Char :=
  ('[' :: (toString num).toList) ++ ("] ").toList ++ c.source
  ++ (", chunk ").toList ++ (toString c.chunk_index).toList

/-- One step of the `for num in cited_numbers` loop (query.py lines
329-333): append a citation when `1 <= num <= len(hits)`, else skip. -/
def citeStep (hits : List Chunk) (sources : List (List Char)) (num : Nat) :
    List (List Char) :=
  if h : 1 ≤ num ∧ num ≤ hits.length then
    sources ++ [mkCitation num (hits.get ⟨num - 1, by omega⟩)]
  else sources

/-- The citation a marker value contributes, if any: `some` exactly for
in-range markers. -/
def citeOf (hits : List Chunk) (num : Nat) : Option (List Char) :=
  if h : 1 ≤ num ∧ num ≤ hits.length then
    some (mkCitation num (hits.get ⟨num - 1, by omega⟩))
  else none

/-- The result dictionary of the sub-question answerer
(`{question, answer, chunks, sources}`). -/
structure AnswerResult where
  question : List Char
  answer : List Char
  chunks : List Chunk
  sources : List (List Char)
deriving DecidableEq, Repr

/-- The sentinel answer returned when retrieval found nothing
(query.py line 299). -/
def noInfoAnswer : List Char := ("No relevant information found.").toList

/-- Models `answer_sub_question(sub_question, target_year)` (query.py lines
283-340).  `retrieveFn` models `retrieve` (query plus index plus metadata),
`llm` the zero-temperature chat completion on the assembled prompt. -/
def answer_sub_question (retrieveFn : List Char → Nat → Option Int → List Chunk)
    (llm : List Char → List Char) (subQuestion : List Char)
    (targetYear : Option Int) : AnswerResult :=
  let hits := retrieveFn subQuestion 4 targetYear
  if hits = [] then
    ⟨subQuestion, noInfoAnswer, [], []⟩
  else
    let numbered := hits.enum.map fun p =>
      ('[' :: (toString (p.1 + 1)).toList) ++ ("] ").toList ++ p.2.text
    let passages := List.intercalate ('\n' :: ['\n']) numbered
    let answer := llm (promptTemplate passages subQuestion)
    let cited := findMarkers answer
    let sources := cited.foldl (citeStep hits) []
    ⟨subQuestion, answer, hits, sources⟩

/-! ## query.py : fallback answering -/

/-- The `"I don't know"` failure sentinel tested by
`answer_sub_question_with_fallback` (query.py lines 263 and 272). -/
def dontKnowSentinel : List Char :=
  ("I don").toList ++ [aposC] ++ ("t know").toList

/-- The `"No relevant information found"` failure sentinel (tested without
the trailing period, query.py lines 263 and 272). -/
def noInfoSentinel : List Char := ("No relevant information found").toList

/-- The shared failure test: the answer text contains either sentinel. -/
def hasFailureSentinel (answer : List Char) : Bool :=
  pyContains dontKnowSentinel answer || pyContains noInfoSentinel answer

/-- The tolerant `"- "`-prefixed line parser shared by
`generate_alternative_questions` (query.py lines 239-246),
`decompose_question` and `generate_context_driven_sub_questions`. -/
def parseDashList (responseText : List Char) : List (List Char) :=
  (pySplitOnChar '\n' responseText).foldl
    (fun acc line =>
      let l := pyStrip line
      if ('-' :: [' ']).isPrefixOf l then acc ++ [pyStrip (l.drop 2)] else acc)
    []

/-- The prompt of `generate_alternative_questions` (query.py lines 214-226). -/
def alternativesPrompt (originalQuestion : List Char) : List Char :=
  ("\nYou are a financial analyst assistant. The original question failed to find relevant data. Generate 3 alternative ways to ask the same question that might find the information in financial reports.\n\nOriginal question: ").toList
  ++ originalQuestion
  ++ ("\n\nGenerate alternative questions that:\n1. Use different terminology (e.g., \"revenue\" vs \"sales\" vs \"income\")\n2. Focus on different aspects (e.g., segment revenue vs total revenue)\n3. Use different time references (e.g., \"2020\" vs \"full year 2020\")\n4. Ask for specific metrics (e.g., \"total revenue\" vs \"consolidated revenue\")\n\nProvide 3 alternative questions, one per line, starting with \"- \":\n").toList

/-- Models `generate_alternative_questions(original_question)` (query.py lines
205-246); `altsLLM` models the temperature-0.3 chat completion. -/
def generate_alternative_questions (altsLLM : List Char → List Char)
    (originalQuestion : List Char) : List (List Char) :=
  parseDashList (altsLLM (alternativesPrompt originalQuestion))

/-- The annotated question recorded when an alternative phrasing succeeded:
`f"{sub_question} (tried alternative: {alt_question})"` (query.py line 274). -/
def triedAlternativeQuestion (subQuestion altQuestion : List Char) : List Char :=
  subQuestion ++ (" (tried alternative: ").toList ++ altQuestion ++ [')']

/-- The `for alt_question in alternatives` retry loop of
`answer_sub_question_with_fallback` (query.py lines 268-278). -/
def tryAlternatives (answerFn : List Char → Option Int → AnswerResult)
    (subQuestion : List Char) (targetYear : Option Int) :
    List (List Char) → AnswerResult → AnswerResult
  | [], original => original
  | alt :: rest, original =>
    let altResult := answerFn alt targetYear
    if ¬ hasFailureSentinel altResult.answer then
      { altResult with question := triedAlternativeQuestion subQuestion alt }
    else tryAlternatives answerFn subQuestion targetYear rest original

/-- Models `answer_sub_question_with_fallback(sub_question, target_year)`
(query.py lines 249-280), with `answer_sub_question` and the
alternative-question generator passed as functions. -/
def answer_sub_question_with_fallback
    (answerFn : List Char → Option Int → AnswerResult)
    (genAlts : List Char → List (List Char))
    (subQuestion : List Char) (targetYear : Option Int) : AnswerResult :=
  let result := answerFn subQuestion targetYear
  if hasFailureSentinel result.answer then
    tryAlternatives answerFn subQuestion targetYear (genAlts subQuestion) result
  else result

/-! ## query.py : gap analysis and synthesis -/

/-- The prompt of `analyze_missing_information` (query.py lines 470-501). -/
def analysisPrompt (originalQuestion mainAnswer context : List Char) : List Char :=
  ("\nYou are a financial analyst assistant. I have provided an initial answer to the user").toList
  ++ [aposC]
  ++ ("s question, but I need to analyze what information is missing and what additional data would make the answer more comprehensive.\n\nOriginal question: ").toList
  ++ originalQuestion
  ++ ("\n\nMain answer provided: ").toList
  ++ mainAnswer
  ++ ("\n\nAvailable context from retrieved documents:\n").toList
  ++ context
  ++ ("\n\nPlease analyze and provide:\n\n1. What specific information is MISSING from the main answer that would be valuable to include?\n2. What additional data points, metrics, or details would strengthen the answer?\n3. What follow-up questions should be asked to collect this missing information?\n\nFocus on identifying gaps in:\n- Specific financial numbers or metrics\n- Year-over-year comparisons\n- Segment breakdowns\n- Key factors or explanations\n- Detailed analysis or context\n\nProvide your analysis in this format:\nMISSING INFORMATION:\n- [List specific missing information]\n\nFOLLOW-UP QUESTIONS NEEDED:\n- [Question 1 to collect missing info]\n- [Question 2 to collect missing info]\n- [Question 3 to collect missing info]\n").toList

/-- The `current_section` state of the gap-analysis response parser. -/
inductive AnalysisSection where
  | missing
  | questions
deriving DecidableEq, Repr

/-- One line of the gap-analysis response parser (query.py lines 523-532):
section headers switch the state, `"- "` lines are collected into the list
of the currently open section. -/
def analysisStep
    (st : Option AnalysisSection × List (List Char) × List (List Char))
    (line : List Char) :
    Option AnalysisSection × List (List Char) × List (List Char) :=
  let l := pyStrip line
  if ("MISSING INFORMATION:").toList.isPrefixOf l then
    (some .missing, st.2.1, st.2.2)
  else if ("FOLLOW-UP QUESTIONS NEEDED:").toList.isPrefixOf l then
    (some .questions, st.2.1, st.2.2)
  else if ('-' :: [' ']).isPrefixOf l ∧ st.1 = some .missing then
    (st.1, st.2.1 ++ [pyStrip (l.drop 2)], st.2.2)
  else if ('-' :: [' ']).isPrefixOf l ∧ st.1 = some .questions then
    (st.1, st.2.1, st.2.2 ++ [pyStrip (l.drop 2)])
  else st

/-- Models `analyze_missing_information(original_question, main_answer,
available_chunks)` (query.py lines 452-537): build the context from up to
three 300-character chunk excerpts, query the generation service
(`analysisLLM`), and parse the `MISSING INFORMATION:` /
`FOLLOW-UP QUESTIONS NEEDED:` lists.  Returns
`(missing_info, follow_up_questions)`. -/
def analyze_missing_information (analysisLLM : List Char → List Char)
    (originalQuestion mainAnswer : List Char) (availableChunks : List Chunk) :
    List (List Char) × List (List Char) :=
  let chunkSummaries := (availableChunks.take 3).map fun c => c.text.take 300
  let context := List.intercalate ['\n'] chunkSummaries
  let responseText := analysisLLM (analysisPrompt originalQuestion mainAnswer context)
  let parsed := (pySplitOnChar '\n' responseText).foldl analysisStep (none, [], [])
  (parsed.2.1, parsed.2.2)

/-- The `context_parts` accumulation of `synthesize_final_answer`
(query.py lines 354-364), with `enumerate(sub_question_results, 1)`. -/
def synthContextParts : Nat → List AnswerResult → List (List Char)
  | _, [] => []
  | i, r :: rest =>
    ([("Sub-question ").toList ++ (toString i).toList ++ (": ").toList ++ r.question,
      ("Answer: ").toList ++ r.answer]
     ++ (if r.sources ≠ [] then
          [("Sources: ").toList ++ List.intercalate ("; ").toList r.sources]
         else [])
     ++ [[]])
    ++ synthContextParts (i + 1) rest

/-- The prompt of `synthesize_final_answer` (query.py lines 368-389). -/
def synthesisPrompt (originalQuestion context : List Char) : List Char :=
  ("\nYou are a financial analyst assistant. Based on the sub-question answers below, provide a comprehensive answer to the original question.\n\nOriginal question: ").toList
  ++ originalQuestion
  ++ ("\n\nSub-question analysis:\n").toList
  ++ context
  ++ ("\n\nProvide a clear, comprehensive answer that:\n1. Directly answers the original question\n2. Synthesizes information from all sub-questions\n3. Includes specific data and metrics where available\n4. Creates tables or structured data when relevant\n5. Provides year-over-year comparisons\n6. Includes detailed breakdowns by segment or category\n7. Cites sources appropriately\n8. Is well-structured and easy to understand\n\nIMPORTANT: Extract ALL relevant financial data from the sub-question answers. Include specific numbers, percentages, and detailed breakdowns. Create tables when comparing multiple years or metrics.\n\nIf the sub-questions don").toList
  ++ [aposC]
  ++ ("t provide enough information to answer the original question, say so clearly.\n").toList

/-- Models `synthesize_final_answer(original_question, sub_question_results)`
(query.py lines 343-401); `synthLLM` models the GPT-4o synthesis call. -/
def synthesize_final_answer (synthLLM : List Char → List Char)
    (originalQuestion : List Char) (subQuestionResults : List AnswerResult) :
    List Char :=
  let context := List.intercalate ['\n'] (synthContextParts 1 subQuestionResults)
  synthLLM (synthesisPrompt originalQuestion context)

/-! ## query.py : generate_answer (the orchestrator) -/

/-- The external collaborators of one query-time pipeline run: retrieval
(index search plus metadata) and the four generation-service calls. -/
structure QAEnv where
  retrieveFn : List Char → Nat → Option Int → List Chunk
  answerLLM : List Char → List Char
  altsLLM : List Char → List Char
  analysisLLM : List Char → List Char
  synthLLM : List Char → List Char

/-- Models `answer_sub_question` wired to an environment. -/
def envAnswerSub (env : QAEnv) (subQuestion : List Char)
    (targetYear : Option Int) : AnswerResult :=
  answer_sub_question env.retrieveFn env.answerLLM subQuestion targetYear

/-- Models `answer_sub_question_with_fallback` wired to an environment. -/
def envAnswerFallback (env : QAEnv) (subQuestion : List Char)
    (targetYear : Option Int) : AnswerResult :=
  answer_sub_question_with_fallback (envAnswerSub env)
    (generate_alternative_questions env.altsLLM) subQuestion targetYear

/-- Models `generate_answer(question, retrieved_chunks)` (query.py lines 404-449).
The `retrieved_chunks` parameter of the source is unused there and is not
modelled.  Stages: main attempt with fallback, gap analysis, one fallback
answer per follow-up question, then synthesis over
`[main_result] + follow_up_results` — on every path. -/
def generate_answer (env : QAEnv) (question : List Char) : List Char :=
  let targetYear := extract_year_from_query question
  let mainResult := envAnswerFallback env question targetYear
  let mainChunks := mainResult.chunks
  let analysis := analyze_missing_information env.analysisLLM question
    mainResult.answer mainChunks
  let followUpQuestions := analysis.2
  let followUpResults := followUpQuestions.map fun q => envAnswerFallback env q targetYear
  let allResults := mainResult :: followUpResults
  synthesize_final_answer env.synthLLM question allResults

/-! ## Concrete fixtures used by witnesses and counterexamples -/

/-- A metadata store with three chunks (years 2022, 2019, 2023). -/
def metaW : Int → Option Chunk := fun i =>
  if i = 0 then some ⟨("a.pdf").toList, 0, ("t0").toList, 2022, 2022⟩
  else if i = 1 then some ⟨("b.pdf").toList, 1, ("t1").toList, 2019, 2019⟩
  else if i = 2 then some ⟨("c.pdf").toList, 0, ("t2").toList, 2023, 2023⟩
  else none

/-- A search oracle returning neighbor ids 0, 1, 2 at any depth. -/
def searchW : Nat → List Int := fun _ => [0, 1, 2]

/-- A retrieval oracle that never finds chunks. -/
def retrieveNoneW : List Char → Nat → Option Int → List Chunk := fun _ _ _ => []

/-- A generation oracle returning the empty text. -/
def llmNilW : List Char → List Char := fun _ => []

/-- A single metadata chunk for the citation witness. -/
def chunkW0 : Chunk := ⟨("a.pdf").toList, 0, ("t").toList, 2022, 2022⟩

/-- A retrieval oracle returning exactly `chunkW0`. -/
def retrieveOneW : List Char → Nat → Option Int → List Chunk := fun _ _ _ => [chunkW0]

/-- A generation oracle answering with one in-range and one out-of-range
citation marker. -/
def llmMarkersW : List Char → List Char := fun _ => ("See [1] and [5].").toList

/-- A sub-question answering oracle that fails except on question `"a"`. -/
def answerFnW : List Char → Option Int → AnswerResult := fun q _ =>
  if q = ['a'] then ⟨q, ("ok").toList, [], []⟩ else ⟨q, noInfoAnswer, [], []⟩

/-- An alternative-question oracle: first alternative fails, second works. -/
def genAltsW : List Char → List (List Char) := fun _ => [['b'], ['a']]

/-- An environment in which retrieval finds nothing, every generation call
returns the empty text, and synthesis returns `"S"`. -/
def cexEnvC1 : QAEnv :=
  ⟨retrieveNoneW, llmNilW, llmNilW, llmNilW, fun _ => ['S']⟩

/-- An embedding-batch oracle returning one empty vector per input text. -/
def ebW : List (List Char) → Option (List Vec) := fun b => some (b.map fun _ => [])

/-- A one-document corpus for the ingestion witness. -/
def docsW : List DocInput := [⟨("r2022.pdf").toList, some (("hello world").toList)⟩]

/-! ## Lemmas about pyStrip, pySlice and the chunk_text loop -/

theorem pyStrip_length_le (l : List Char) : (pyStrip l).length ≤ l.length := by
  unfold pyStrip
  have h1 := (List.dropWhile_suffix (l := l) Char.isWhitespace).length_le
  have h2 :=
    (List.dropWhile_suffix (l := (l.dropWhile Char.isWhitespace).reverse)
      Char.isWhitespace).length_le
  simp only [List.length_reverse] at *
  omega

theorem pySlice_window_length_le (text : List Char) (chunkSize : Nat) (start : Int)
    (hs : 0 ≤ start) :
    (pySlice text start (min (start + (chunkSize : Int)) (text.length : Int))).length
      ≤ chunkSize := by
  unfold pySlice pyIndex
  have he : ¬ (min (start + (chunkSize : Int)) (text.length : Int) < 0) := by omega
  have hs' : ¬ (start < 0) := by omega
  simp only [he, hs', if_false, List.length_drop, List.length_take]
  omega

theorem chunkTextLoop_isSome (text : List Char) (chunkSize overlap : Nat)
    (h : overlap < chunkSize) :
    ∀ (fuel : Nat) (start : Int) acc,
      (text.length : Int) ≤ start + (fuel : Int) * ((chunkSize : Int) - (overlap : Int)) →
      (chunkTextLoop text chunkSize overlap fuel start acc).isSome = true := by
  intro fuel
  induction fuel with
  | zero =>
    intro start acc hle
    simp only [Nat.cast_zero, zero_mul, add_zero] at hle
    simp only [chunkTextLoop]
    rw [if_neg (by omega)]
    rfl
  | succ n ih =>
    intro start acc hle
    simp only [chunkTextLoop]
    split
    · apply ih
      have : ((n + 1 : Nat) : Int) * ((chunkSize : Int) - (overlap : Int))
          = (n : Int) * ((chunkSize : Int) - (overlap : Int))
            + ((chunkSize : Int) - (overlap : Int)) := by push_cast; ring
      rw [this] at hle
      omega
    · rfl

theorem chunkTextLoop_none (text : List Char) (chunkSize overlap : Nat)
    (h : chunkSize ≤ overlap) (htext : text ≠ []) :
    ∀ fuel (start : Int) acc, start ≤ 0 →
      chunkTextLoop text chunkSize overlap fuel start acc = none := by
  have hlen : 0 < text.length := List.length_pos.mpr htext
  intro fuel
  induction fuel with
  | zero =>
    intro start acc hs
    simp only [chunkTextLoop]
    rw [if_pos (by omega)]
  | succ n ih =>
    intro start acc hs
    simp only [chunkTextLoop]
    rw [if_pos (by omega)]
    exact ih _ _ (by omega)

theorem chunkTextLoop_sizes (text : List Char) (chunkSize overlap : Nat)
    (h : overlap < chunkSize) :
    ∀ fuel (start : Int) acc l, 0 ≤ start →
      (∀ c ∈ acc, c.length ≤ chunkSize) →
      chunkTextLoop text chunkSize overlap fuel start acc = some l →
      ∀ c ∈ l, c.length ≤ chunkSize := by
  intro fuel
  induction fuel with
  | zero =>
    intro start acc l hs hacc heq
    simp only [chunkTextLoop] at heq
    split at heq
    · exact absurd heq (by simp)
    · obtain rfl : acc.reverse = l := by injection heq
      intro c hc
      exact hacc c (List.mem_reverse.mp hc)
  | succ n ih =>
    intro start acc l hs hacc heq
    simp only [chunkTextLoop] at heq
    split at heq
    · refine ih _ _ _ (by omega) ?_ heq
      intro c hc
      rcases List.mem_cons.mp hc with hc | hc
      · subst hc
        exact (pyStrip_length_le _).trans (pySlice_window_length_le text chunkSize start hs)
      · exact hacc c hc
    · obtain rfl : acc.reverse = l := by injection heq
      intro c hc
      exact hacc c (List.mem_reverse.mp hc)

theorem chunkTextLoop_acc_le (text : List Char) (chunkSize overlap : Nat) :
    ∀ fuel (start : Int) acc l,
      chunkTextLoop text chunkSize overlap fuel start acc = some l →
      acc.length ≤ l.length := by
  intro fuel
  induction fuel with
  | zero =>
    intro start acc l heq
    simp only [chunkTextLoop] at heq
    split at heq
    · exact absurd heq (by simp)
    · obtain rfl : acc.reverse = l := by injection heq
      simp
  | succ n ih =>
    intro start acc l heq
    simp only [chunkTextLoop] at heq
    split at heq
    · have := ih _ _ _ heq
      simp only [List.length_cons] at this
      omega
    · obtain rfl : acc.reverse = l := by injection heq
      simp

theorem chunk_text_fuel_some (text : List Char) (chunkSize overlap : Nat)
    (h : overlap < chunkSize) :
    ∃ l, chunkTextLoop text chunkSize overlap text.length 0 [] = some l := by
  have hs := chunkTextLoop_isSome text chunkSize overlap h text.length 0 []
    (by
      have h1 : (1 : Int) ≤ (chunkSize : Int) - (overlap : Int) := by omega
      have h0 : (0 : Int) ≤ (text.length : Int) := by positivity
      nlinarith)
  exact Option.isSome_iff_exists.mp hs

theorem chunk_text_sizes (text : List Char) (chunkSize overlap : Nat)
    (h : overlap < chunkSize) :
    ∀ c ∈ chunk_text text chunkSize overlap, c.length ≤ chunkSize := by
  obtain ⟨l, hl⟩ := chunk_text_fuel_some text chunkSize overlap h
  unfold chunk_text
  rw [hl]
  exact chunkTextLoop_sizes text chunkSize overlap h _ 0 [] l le_rfl (by simp) hl

theorem chunk_text_ne_nil (text : List Char) (chunkSize overlap : Nat)
    (h : overlap < chunkSize) (htext : text ≠ []) :
    chunk_text text chunkSize overlap ≠ [] := by
  obtain ⟨l, hl⟩ := chunk_text_fuel_some text chunkSize overlap h
  unfold chunk_text
  rw [hl]
  simp only [Option.getD_some]
  obtain ⟨n, hn⟩ : ∃ n, text.length = n + 1 := by
    cases hlen : text.length with
    | zero => exact absurd (List.length_eq_zero.mp hlen) htext
    | succ n => exact ⟨n, rfl⟩
  rw [hn] at hl
  simp only [chunkTextLoop] at hl
  rw [if_pos (by rw [hn]; omega)] at hl
  have := chunkTextLoop_acc_le text chunkSize overlap _ _ _ _ hl
  simp only [List.length_cons, List.length_nil] at this
  intro hnil
  rw [hnil] at this
  simp at this

theorem chunkFinalize_bounds (chunkSize overlap : Nat) (h1 : overlap < chunkSize)
    (text : List Char) (htext : text ≠ []) (chunks final : List (List Char))
    (hdef : final = chunks.flatMap
      (fun c => if chunkSize * 2 < c.length then chunk_text c chunkSize overlap else [c])) :
    (if final = [] then chunk_text text chunkSize overlap else final) ≠ []
    ∧ ∀ c ∈ (if final = [] then chunk_text text chunkSize overlap else final),
      c.length ≤ chunkSize * 2 := by
  have hcs2 : chunkSize ≤ chunkSize * 2 := by omega
  by_cases hf : final = []
  · rw [if_pos hf]
    refine ⟨chunk_text_ne_nil text chunkSize overlap h1 htext, ?_⟩
    intro c hc
    exact (chunk_text_sizes text chunkSize overlap h1 c hc).trans hcs2
  · rw [if_neg hf]
    refine ⟨hf, ?_⟩
    intro c hc
    rw [hdef] at hc
    obtain ⟨a, _, hca⟩ := List.mem_flatMap.mp hc
    by_cases ha : chunkSize * 2 < a.length
    · rw [if_pos ha] at hca
      exact (chunk_text_sizes a chunkSize overlap h1 c hca).trans hcs2
    · rw [if_neg ha] at hca
      obtain rfl : c = a := by simpa using hca
      omega

/-- Claim C4: for non-empty input and `0 < overlap < chunk_size`,
`chunk_by_sections` returns at least one chunk and every returned chunk has
length at most `chunk_size * 2` (oversize chunks are re-split through
`chunk_text`, whose windows have length at most `chunk_size`). -/
theorem claim_C4_chunk_by_sections_bounds (text : List Char)
    (chunkSize overlap : Nat) (h0 : 0 < overlap) (h1 : overlap < chunkSize)
    (htext : text ≠ []) :
    chunk_by_sections text chunkSize overlap ≠ [] ∧
      ∀ c ∈ chunk_by_sections text chunkSize overlap, c.length ≤ chunkSize * 2 := by
  exact chunkFinalize_bounds chunkSize overlap h1 text htext
    (let st := (pySplitParas text).foldl (chunkBySectionsStep chunkSize overlap) ([], [])
     if st.2 ≠ [] then st.1 ++ [pyStrip st.2] else st.1)
    _ rfl

/-- Witness for C4 at `text = "ab"`, `chunk_size = 3`, `overlap = 1`. -/
theorem claim_C4_witness :
    chunk_by_sections ("ab").toList 3 1 ≠ [] ∧
      ∀ c ∈ chunk_by_sections ("ab").toList 3 1, c.length ≤ 3 * 2 :=
  claim_C4_chunk_by_sections_bounds ("ab").toList 3 1 (by decide) (by decide)
    (by decide)

/-- Claim C9: the `chunk_text` scan loop is total exactly when
`overlap < chunk_size`.  With `overlap < chunk_size`, fuel `text.length`
always suffices (the position advances by at least one per iteration);
with `overlap >= chunk_size` and non-empty text, no amount of fuel
completes the loop, i.e. the Python `while` loop never terminates. -/
theorem claim_C9_chunk_text_termination (chunkSize overlap : Nat)
    (text : List Char) :
    (overlap < chunkSize →
      (chunkTextLoop text chunkSize overlap text.length 0 []).isSome = true) ∧
    (chunkSize ≤ overlap → text ≠ [] →
      ∀ fuel, chunkTextLoop text chunkSize overlap fuel 0 [] = none) := by
  constructor
  · intro h
    obtain ⟨l, hl⟩ := chunk_text_fuel_some text chunkSize overlap h
    rw [hl]
    rfl
  · intro h htext fuel
    exact chunkTextLoop_none text chunkSize overlap h htext fuel 0 [] le_rfl

/-- Witness for C9: with `overlap = 1 < 3 = chunk_size` the loop finishes on
`"ab"` within `2` steps; with `overlap = 3 >= 1 = chunk_size` it consumes any
amount of fuel (shown at fuel `5`) without terminating. -/
theorem claim_C9_witness :
    (chunkTextLoop ("ab").toList 3 1 ("ab").toList.length 0 []).isSome = true ∧
      chunkTextLoop ("ab").toList 1 3 5 0 [] = none :=
  ⟨(claim_C9_chunk_text_termination 3 1 ("ab").toList).1 (by decide),
   (claim_C9_chunk_text_termination 1 3 ("ab").toList).2 (by decide) (by decide) 5⟩

/-! ## Lemmas about retrieve -/

theorem retrieveStep_eq (targetYear : Option Int) (chunk : Chunk)
    (results : List Chunk) :
    (if pyTruthy targetYear then
      if chunk.year = targetYear.getD 0 then results ++ [chunk]
      else if (chunk.year - targetYear.getD 0).natAbs ≤ 1 then results ++ [chunk]
      else results
     else results ++ [chunk])
    = if retrieveAccepts targetYear chunk then results ++ [chunk] else results := by
  unfold retrieveAccepts
  cases ht : pyTruthy targetYear
  · simp
  · simp only [if_true]
    by_cases h1 : chunk.year = targetYear.getD 0
    · simp [h1]
    · by_cases h2 : (chunk.year - targetYear.getD 0).natAbs ≤ 1 <;> simp [h1, h2]

theorem acceptedChunks_cons (meta : Int → Option Chunk) (targetYear : Option Int)
    (idx : Int) (rest : List Int) :
    acceptedChunks meta targetYear (idx :: rest)
      = (match meta idx with
         | none => []
         | some c => if retrieveAccepts targetYear c then [c] else [])
        ++ acceptedChunks meta targetYear rest := by
  unfold acceptedChunks
  rw [List.filterMap_cons]
  cases hm : meta idx
  · simp [hm, Option.bind]
  · rename_i c
    by_cases hc : retrieveAccepts targetYear c
    · simp [hm, hc, Option.bind]
    · simp [hm, hc, Option.bind]

theorem retrieveLoop_take (meta : Int → Option Chunk) (targetYear : Option Int)
    (k : Nat) :
    ∀ (ids : List Int) (acc : List Chunk),
      (retrieveLoop meta targetYear k ids acc).take k
        = (acc ++ acceptedChunks meta targetYear ids).take k := by
  intro ids
  induction ids with
  | nil =>
    intro acc
    simp [retrieveLoop, acceptedChunks]
  | cons idx rest ih =>
    intro acc
    rw [acceptedChunks_cons]
    simp only [retrieveLoop]
    cases hm : meta idx with
    | none => simpa using ih acc
    | some chunk =>
      dsimp only
      rw [retrieveStep_eq]
      by_cases hacc : retrieveAccepts targetYear chunk
      · rw [if_pos hacc, if_pos hacc]
        by_cases hstop : k ≤ (acc ++ [chunk]).length
        · rw [if_pos hstop, ← List.append_assoc,
            List.take_append_of_le_length hstop]
        · rw [if_neg hstop, ih (acc ++ [chunk]), ← List.append_assoc]
      · rw [if_neg hacc, if_neg hacc]
        by_cases hstop : k ≤ acc.length
        · rw [if_pos hstop]
          simp only [List.nil_append]
          rw [List.take_append_of_le_length hstop]
        · rw [if_neg hstop]
          simpa using ih acc

theorem retrieve_eq_take (search : Nat → List Int) (meta : Int → Option Chunk)
    (k : Nat) (targetYear : Option Int) :
    retrieve search meta k targetYear
      = (acceptedChunks meta targetYear
          (search (if pyTruthy targetYear then k * 3 else k))).take k := by
  unfold retrieve
  rw [retrieveLoop_take]
  simp

/-- Claim C2: with a non-zero target year `Y` and `k > 0`, `retrieve`
returns at most `k` chunks, every returned chunk has a year within one of
`Y`, and the result is exactly the first `k` searched neighbors that
resolve and pass the year filter — never padded with other-year chunks. -/
theorem claim_C2_retrieve_temporal_filter (search : Nat → List Int)
    (meta : Int → Option Chunk) (k : Nat) (Y : Int) (hk : 0 < k) (hY : Y ≠ 0) :
    (retrieve search meta k (some Y)).length ≤ k ∧
    (∀ c ∈ retrieve search meta k (some Y), (c.year - Y).natAbs ≤ 1) ∧
    retrieve search meta k (some Y)
      = (acceptedChunks meta (some Y) (search (k * 3))).take k := by
  have ht : pyTruthy (some Y) = true := by
    simp [pyTruthy, bne_iff_ne, hY]
  have heq : retrieve search meta k (some Y)
      = (acceptedChunks meta (some Y) (search (k * 3))).take k := by
    rw [retrieve_eq_take, ht]
    simp
  refine ⟨?_, ?_, heq⟩
  · rw [heq]
    simp [List.length_take]
  · intro c hc
    rw [heq] at hc
    have hc' := List.take_subset k _ hc
    obtain ⟨idx, _, hidx⟩ := List.mem_filterMap.mp hc'
    cases hm : meta idx with
    | none => rw [hm] at hidx; exact absurd hidx (by simp [Option.bind])
    | some c' =>
      rw [hm] at hidx
      simp only [Option.bind] at hidx
      by_cases hacc : retrieveAccepts (some Y) c'
      · rw [if_pos hacc] at hidx
        obtain rfl : c' = c := by injection hidx
        unfold retrieveAccepts at hacc
        rw [ht] at hacc
        simp only [if_true, Option.getD_some, Bool.or_eq_true,
          decide_eq_true_eq] at hacc
        rcases hacc with h | h
        · simp [h]
        · exact h
      · rw [if_neg hacc] at hidx
        exact absurd hidx (by simp)

/-- Witness for C2 on the three-vector fixture index (years 2022, 2019,
2023) with `k = 2`, `Y = 2022`. -/
theorem claim_C2_witness :
    (retrieve searchW metaW 2 (some 2022)).length ≤ 2 ∧
    (∀ c ∈ retrieve searchW metaW 2 (some 2022), (c.year - 2022).natAbs ≤ 1) ∧
    retrieve searchW metaW 2 (some 2022)
      = (acceptedChunks metaW (some 2022) (searchW (2 * 3))).take 2 :=
  claim_C2_retrieve_temporal_filter searchW metaW 2 2022 (by decide) (by decide)

/-- Claim C8: `retrieve` consults the index for `3k` neighbors exactly when
the target year is truthy and for `k` otherwise (the result depends on the
search oracle only at that depth), and with no target year the result is
the first `k` neighbors that resolve in the metadata, in the order the
search returned them, hence at most `k` and in search (similarity) order. -/
theorem claim_C8_retrieve_search_depth_and_order (s1 s2 : Nat → List Int)
    (meta : Int → Option Chunk) (k : Nat) (targetYear : Option Int)
    (hagree : s1 (if pyTruthy targetYear then k * 3 else k)
      = s2 (if pyTruthy targetYear then k * 3 else k)) :
    retrieve s1 meta k targetYear = retrieve s2 meta k targetYear ∧
    retrieve s1 meta k none = ((s1 k).filterMap meta).take k ∧
    (retrieve s1 meta k none).length ≤ k := by
  refine ⟨?_, ?_, ?_⟩
  · rw [retrieve_eq_take, retrieve_eq_take, hagree]
  · rw [retrieve_eq_take]
    have : acceptedChunks meta none (s1 (if pyTruthy none then k * 3 else k))
        = (s1 k).filterMap meta := by
      unfold acceptedChunks
      have hfun : ∀ idx : Int,
          ((meta idx).bind fun c => if retrieveAccepts none c then some c else none)
            = meta idx := by
        intro idx
        cases meta idx <;> simp [retrieveAccepts, pyTruthy, Option.bind]
      simp only [pyTruthy, if_false, Bool.false_eq_true]
      exact List.filterMap_congr (fun idx _ => hfun idx)
    rw [this]
  · rw [retrieve_eq_take]
    simp [List.length_take]

theorem claim_C8_witness :
    retrieve searchW metaW 2 (some 2022) = retrieve searchW metaW 2 (some 2022) ∧
    retrieve searchW metaW 2 none = ((searchW 2).filterMap metaW).take 2 ∧
    (retrieve searchW metaW 2 none).length ≤ 2 :=
  claim_C8_retrieve_search_depth_and_order searchW searchW metaW 2 (some 2022) rfl

/-- Claim C10: `target_year = 0` (the "unknown year" ingestion default) is
falsy in Python, so it disables the year filter and the `3k` over-fetch
exactly like `target_year = None`, and the two calls return the same list. -/
theorem claim_C10_retrieve_year_zero_eq_none (search : Nat → List Int)
    (meta : Int → Option Chunk) (k : Nat) :
    retrieve search meta k (some 0) = retrieve search meta k none := by
  rw [retrieve_eq_take, retrieve_eq_take]
  have ht : pyTruthy (some 0) = pyTruthy none := rfl
  rw [ht]
  unfold acceptedChunks
  have hfun : ∀ idx : Int,
      ((meta idx).bind fun c => if retrieveAccepts (some 0) c then some c else none)
        = ((meta idx).bind fun c => if retrieveAccepts none c then some c else none) := by
    intro idx
    cases meta idx <;> simp [retrieveAccepts, pyTruthy, Option.bind]
  rw [List.filterMap_congr (fun idx _ => hfun idx)]

/-! ## Lemmas about embed_texts and ingestion -/

theorem embedTextsGo_length (eb : List (List Char) → Option (List Vec))
    (bs : Nat) (hbs : 0 < bs)
    (hc : ∀ b r, eb b = some r → r.length = b.length) :
    ∀ ts, (embedTextsGo eb bs ts).length = ts.length := by
  have H : ∀ n ts, ts.length ≤ n → (embedTextsGo eb bs ts).length = ts.length := by
    intro n
    induction n with
    | zero =>
      intro ts hlen
      obtain rfl : ts = [] := List.length_eq_zero.mp (by omega)
      simp [embedTextsGo]
    | succ n ih =>
      intro ts hlen
      cases ts with
      | nil => simp [embedTextsGo]
      | cons t rest =>
        simp only [embedTextsGo]
        rw [if_neg (by omega)]
        rw [List.length_append]
        have hrest : (embedTextsGo eb bs ((t :: rest).drop bs)).length
            = ((t :: rest).drop bs).length := by
          apply ih
          simp only [List.length_drop, List.length_cons] at *
          omega
        rw [hrest]
        cases heb : eb ((t :: rest).take bs) with
        | none =>
          simp only [List.length_map, List.length_take, List.length_drop,
            List.length_cons]
          omega
        | some rs =>
          have hlen2 := hc _ _ heb
          simp only [hlen2, List.length_take, List.length_drop, List.length_cons]
          omega
  intro ts
  exact H ts.length ts le_rfl

theorem embedTextsGo_allfail (bs : Nat) (hbs : 0 < bs) :
    ∀ ts, embedTextsGo (fun _ => none) bs ts
      = List.replicate ts.length zeroVec3072 := by
  have H : ∀ n ts, ts.length ≤ n →
      embedTextsGo (fun _ => none) bs ts = List.replicate ts.length zeroVec3072 := by
    intro n
    induction n with
    | zero =>
      intro ts hlen
      obtain rfl : ts = [] := List.length_eq_zero.mp (by omega)
      simp [embedTextsGo]
    | succ n ih =>
      intro ts hlen
      cases ts with
      | nil => simp [embedTextsGo]
      | cons t rest =>
        simp only [embedTextsGo]
        rw [if_neg (by omega)]
        rw [ih ((t :: rest).drop bs)
          (by simp only [List.length_drop, List.length_cons] at *; omega)]
        rw [List.map_const', ← List.replicate_add]
        congr 1
        simp only [List.length_take, List.length_drop, List.length_cons]
        omega
  intro ts
  exact H ts.length ts le_rfl

/-- Claim C6: `embed_texts` returns one vector per input text whatever the
batch oracle does (given the service contract that a successful batch call
returns one row per input), an all-failing oracle yields exactly one
3072-dimensional zero vector per text, and a failed first batch fills
exactly its rows of the output with zero vectors. -/
theorem claim_C6_embed_texts_parity (eb : List (List Char) → Option (List Vec))
    (texts : List (List Char)) (bs : Nat) (hbs : 0 < bs)
    (hc : ∀ b r, eb b = some r → r.length = b.length) :
    (embed_texts eb texts bs).length = texts.length ∧
    embed_texts (fun _ => none) texts bs = List.replicate texts.length zeroVec3072 ∧
    (∀ t rest, texts = t :: rest → eb (texts.take bs) = none →
      (embed_texts eb texts bs).take (texts.take bs).length
        = List.replicate (texts.take bs).length zeroVec3072) := by
  refine ⟨embedTextsGo_length eb bs hbs hc texts, embedTextsGo_allfail bs hbs texts, ?_⟩
  rintro t rest rfl heb
  show (embedTextsGo eb bs (t :: rest)).take ((t :: rest).take bs).length
    = List.replicate ((t :: rest).take bs).length zeroVec3072
  simp only [embedTextsGo]
  rw [if_neg (by omega), heb]
  dsimp only
  rw [List.map_const']
  exact List.take_left' (by simp)

theorem mkDocMeta_spec (fname : List Char) (year : Int) :
    ∀ (chunks : List (List Char)) (counter i : Nat),
      (mkDocMeta fname year counter i chunks).map Prod.fst
        = (List.range chunks.length).map (fun j => (toString (counter + j)).toList) ∧
      (mkDocMeta fname year counter i chunks).map (fun e => e.2.text)
        = chunks.map (fun c => c.take 4000) ∧
      (mkDocMeta fname year counter i chunks).length = chunks.length := by
  intro chunks
  induction chunks with
  | nil => intro counter i; simp [mkDocMeta]
  | cons c rest ih =>
    intro counter i
    obtain ⟨ih1, ih2, ih3⟩ := ih (counter + 1) (i + 1)
    refine ⟨?_, ?_, ?_⟩
    · simp only [mkDocMeta, List.map_cons, List.length_cons,
        List.range_succ_eq_map, List.map_map]
      rw [ih1]
      congr 1
      have hfun : (fun j => (toString (counter + 1 + j)).toList)
          = ((fun j => (toString (counter + j)).toList) ∘ Nat.succ) := by
        funext j
        simp only [Function.comp_apply]
        congr 2
        omega
      rw [hfun]
    · simp only [mkDocMeta, List.map_cons]
      rw [ih2]
    · simp only [mkDocMeta, List.length_cons]
      omega

theorem ingestStep_invariant (st : IngestState) (doc : DocInput)
    (h1 : st.id_counter = st.all_chunks.length)
    (h2 : st.metadata.map Prod.fst
      = (List.range st.all_chunks.length).map (fun n => (toString n).toList))
    (h3 : st.metadata.map (fun e => e.2.text)
      = st.all_chunks.map (fun c => c.take 4000))
    (h4 : st.metadata.length = st.all_chunks.length) :
    (ingestStep st doc).id_counter = (ingestStep st doc).all_chunks.length ∧
    (ingestStep st doc).metadata.map Prod.fst
      = (List.range (ingestStep st doc).all_chunks.length).map
          (fun n => (toString n).toList) ∧
    (ingestStep st doc).metadata.map (fun e => e.2.text)
      = (ingestStep st doc).all_chunks.map (fun c => c.take 4000) ∧
    (ingestStep st doc).metadata.length = (ingestStep st doc).all_chunks.length := by
  unfold ingestStep
  cases doc.extracted with
  | none => exact ⟨h1, h2, h3, h4⟩
  | some text =>
    dsimp only
    obtain ⟨m1, m2, m3⟩ := mkDocMeta_spec doc.fname
      (extract_year_from_filename doc.fname) (chunk_by_sections text 1200 300)
      st.id_counter 0
    refine ⟨?_, ?_, ?_, ?_⟩
    · simp only [List.length_append]
      omega
    · rw [List.map_append, h2, m1, List.length_append, List.range_add,
        List.map_append, List.map_map]
      congr 1
      apply List.map_congr_left
      intro j _
      simp only [Function.comp_apply]
      congr 2
      omega
    · rw [List.map_append, h3, m2, List.map_append]
    · simp only [List.length_append]
      omega

theorem ingestDocs_invariant :
    ∀ (docs : List DocInput) (st : IngestState),
      st.id_counter = st.all_chunks.length →
      st.metadata.map Prod.fst
        = (List.range st.all_chunks.length).map (fun n => (toString n).toList) →
      st.metadata.map (fun e => e.2.text)
        = st.all_chunks.map (fun c => c.take 4000) →
      st.metadata.length = st.all_chunks.length →
      (docs.foldl ingestStep st).id_counter
          = (docs.foldl ingestStep st).all_chunks.length ∧
      (docs.foldl ingestStep st).metadata.map Prod.fst
        = (List.range (docs.foldl ingestStep st).all_chunks.length).map
            (fun n => (toString n).toList) ∧
      (docs.foldl ingestStep st).metadata.map (fun e => e.2.text)
        = (docs.foldl ingestStep st).all_chunks.map (fun c => c.take 4000) ∧
      (docs.foldl ingestStep st).metadata.length
          = (docs.foldl ingestStep st).all_chunks.length := by
  intro docs
  induction docs with
  | nil => intro st h1 h2 h3 h4; exact ⟨h1, h2, h3, h4⟩
  | cons doc rest ih =>
    intro st h1 h2 h3 h4
    obtain ⟨g1, g2, g3, g4⟩ := ingestStep_invariant st doc h1 h2 h3 h4
    exact ih (ingestStep st doc) g1 g2 g3 g4

/-- Claim C3: for every ingestion run, chunk ids are the decimal strings
`"0", "1", ...` in corpus order, the metadata entry at position `i` stores
the text of the chunk embedded at row `i` truncated to 4000 characters, the
number of index rows (per the embedding-service contract) and metadata
entries both equal the number of chunks, and `build_index` persists exactly
those rows and entries. -/
theorem claim_C3_ingest_parity (docs : List DocInput)
    (eb : List (List Char) → Option (List Vec))
    (hc : ∀ b r, eb b = some r → r.length = b.length) :
    (ingestDocs docs).metadata.map Prod.fst
      = (List.range (ingestDocs docs).all_chunks.length).map
          (fun n => (toString n).toList) ∧
    (ingestDocs docs).metadata.map (fun e => e.2.text)
      = (ingestDocs docs).all_chunks.map (fun c => c.take 4000) ∧
    (embed_texts eb (ingestDocs docs).all_chunks 100).length
        = (ingestDocs docs).all_chunks.length ∧
    (ingestDocs docs).metadata.length = (ingestDocs docs).all_chunks.length ∧
    (build_index (embed_texts eb (ingestDocs docs).all_chunks 100)
        (ingestDocs docs).metadata).1.length
      = (build_index (embed_texts eb (ingestDocs docs).all_chunks 100)
        (ingestDocs docs).metadata).2.length := by
  obtain ⟨g1, g2, g3, g4⟩ := ingestDocs_invariant docs ⟨[], [], 0⟩
    (by simp) (by simp) (by simp) (by simp)
  have hemb : (embed_texts eb (ingestDocs docs).all_chunks 100).length
      = (ingestDocs docs).all_chunks.length :=
    embedTextsGo_length eb 100 (by omega) hc (ingestDocs docs).all_chunks
  refine ⟨g2, g3, hemb, g4, ?_⟩
  show (embed_texts eb (ingestDocs docs).all_chunks 100).length
      = (ingestDocs docs).metadata.length
  rw [hemb]
  exact g4.symm

/-! ## Lemmas about the fallback answerer and citations -/

theorem tryAlternatives_eq_find (answerFn : List Char → Option Int → AnswerResult)
    (subQuestion : List Char) (targetYear : Option Int) (original : AnswerResult) :
    ∀ alts, tryAlternatives answerFn subQuestion targetYear alts original
      = match alts.find?
            (fun a => !hasFailureSentinel (answerFn a targetYear).answer) with
        | some a => { answerFn a targetYear with
            question := triedAlternativeQuestion subQuestion a }
        | none => original := by
  intro alts
  induction alts with
  | nil => simp [tryAlternatives, List.find?]
  | cons alt rest ih =>
    by_cases hs : hasFailureSentinel (answerFn alt targetYear).answer = true
    · simp only [tryAlternatives, hs, not_true_eq_false, if_false,
        List.find?_cons, Bool.not_true]
      exact ih
    · rw [Bool.not_eq_true] at hs
      simp only [tryAlternatives, hs, Bool.false_eq_true, not_false_eq_true,
        if_true, List.find?_cons, Bool.not_false]

/-- Claim C5: when the direct answer carries a failure sentinel, the
fallback answerer returns the first alternative phrasing whose answer
carries no sentinel, with the question field annotated with that
alternative; if no alternative is clean (including when none are
generated), the original failed result is returned unchanged. -/
theorem claim_C5_fallback_first_clean_alternative
    (answerFn : List Char → Option Int → AnswerResult)
    (genAlts : List Char → List (List Char))
    (subQuestion : List Char) (targetYear : Option Int)
    (hfail : hasFailureSentinel (answerFn subQuestion targetYear).answer = true) :
    answer_sub_question_with_fallback answerFn genAlts subQuestion targetYear
      = match (genAlts subQuestion).find?
            (fun a => !hasFailureSentinel (answerFn a targetYear).answer) with
        | some a => { answerFn a targetYear with
            question := triedAlternativeQuestion subQuestion a }
        | none => answerFn subQuestion targetYear := by
  unfold answer_sub_question_with_fallback
  rw [if_pos hfail]
  exact tryAlternatives_eq_find answerFn subQuestion targetYear _ _

/-- Witness for C5: the original question fails, the first generated
alternative also fails, and the second succeeds and is returned with the
annotation. -/
theorem claim_C5_witness :
    hasFailureSentinel (answerFnW (['q']) none).answer = true ∧
    answer_sub_question_with_fallback answerFnW genAltsW (['q']) none
      = { answerFnW (['a']) none with
          question := triedAlternativeQuestion (['q']) (['a']) } :=
  ⟨by decide,
   claim_C5_fallback_first_clean_alternative answerFnW genAltsW (['q']) none
     (by decide)⟩

theorem foldl_citeStep (hits : List Chunk) :
    ∀ (cited : List Nat) (acc : List (List Char)),
      cited.foldl (citeStep hits) acc = acc ++ cited.filterMap (citeOf hits) := by
  intro cited
  induction cited with
  | nil => simp
  | cons n rest ih =>
    intro acc
    simp only [List.foldl_cons, List.filterMap_cons]
    by_cases h : 1 ≤ n ∧ n ≤ hits.length
    · rw [show citeStep hits acc n
          = acc ++ [mkCitation n (hits.get ⟨n - 1, by omega⟩)] from dif_pos h]
      rw [show citeOf hits n
          = some (mkCitation n (hits.get ⟨n - 1, by omega⟩)) from dif_pos h]
      rw [ih]
      simp
    · rw [show citeStep hits acc n = acc from dif_neg h]
      rw [show citeOf hits n = none from dif_neg h]
      exact ih acc

/-- Claim C7: with no retrieved chunks, `answer_sub_question` returns the
sentinel result with empty chunk and source lists; otherwise its source
list contains precisely one citation tuple per in-range bracketed marker of
the generated answer, in marker order, out-of-range markers being skipped
without error (`citeOf` is `some` exactly on markers in
`[1, chunk_count]`). -/
theorem claim_C7_answer_sub_question_citations
    (retrieveFn : List Char → Nat → Option Int → List Chunk)
    (llm : List Char → List Char) (subQuestion : List Char)
    (targetYear : Option Int) :
    (retrieveFn subQuestion 4 targetYear = [] →
      answer_sub_question retrieveFn llm subQuestion targetYear
        = ⟨subQuestion, noInfoAnswer, [], []⟩) ∧
    (retrieveFn subQuestion 4 targetYear ≠ [] →
      (answer_sub_question retrieveFn llm subQuestion targetYear).sources
        = (findMarkers
            (answer_sub_question retrieveFn llm subQuestion targetYear).answer).filterMap
            (citeOf (retrieveFn subQuestion 4 targetYear))) := by
  constructor
  · intro h
    unfold answer_sub_question
    rw [if_pos h]
  · intro h
    unfold answer_sub_question
    rw [if_neg h]
    dsimp only
    rw [foldl_citeStep]
    simp

/-- Witness for C7: an empty retrieval yields the sentinel result, and on a
one-chunk retrieval with the answer `"See [1] and [5]."` the sources are
exactly the citations of the in-range markers. -/
theorem claim_C7_witness :
    answer_sub_question retrieveNoneW llmNilW (['q']) none
      = ⟨['q'], noInfoAnswer, [], []⟩ ∧
    (answer_sub_question retrieveOneW llmMarkersW (['q']) none).sources
      = (findMarkers
          (answer_sub_question retrieveOneW llmMarkersW (['q']) none).answer).filterMap
          (citeOf (retrieveOneW (['q']) 4 none)) :=
  ⟨(claim_C7_answer_sub_question_citations retrieveNoneW llmNilW (['q']) none).1 rfl,
   (claim_C7_answer_sub_question_citations retrieveOneW llmMarkersW (['q']) none).2
     (by decide)⟩

/-! ## The orchestrator claim -/

/-- Counterexample to claim C1 as stated: in the fixture environment the
gap analysis produces zero follow-up questions, yet `generate_answer`
returns the synthesis output `"S"`, not the main attempt answer (the
sentinel text).  The source always runs the synthesis call; it never
short-circuits. -/
theorem claim_C1_counterexample :
    (analyze_missing_information cexEnvC1.analysisLLM (['q'])
        (envAnswerFallback cexEnvC1 (['q']) (extract_year_from_query (['q']))).answer
        (envAnswerFallback cexEnvC1 (['q']) (extract_year_from_query (['q']))).chunks).2
      = [] ∧
    generate_answer cexEnvC1 (['q'])
      ≠ (envAnswerFallback cexEnvC1 (['q'])
          (extract_year_from_query (['q']))).answer := by
  constructor
  · decide
  · decide

/-- Claim C1 amended: when gap analysis yields zero follow-up questions the
`FOLLOW_UP` stage contributes nothing, but `SYNTHESIS` still runs — the
final answer is `synthesize_final_answer(question, [main_result])`, not the
main answer returned verbatim. -/
theorem claim_C1_amended_always_synthesizes (env : QAEnv) (question : List Char)
    (h : (analyze_missing_information env.analysisLLM question
        (envAnswerFallback env question (extract_year_from_query question)).answer
        (envAnswerFallback env question (extract_year_from_query question)).chunks).2
      = []) :
    generate_answer env question
      = synthesize_final_answer env.synthLLM question
          [envAnswerFallback env question (extract_year_from_query question)] := by
  unfold generate_answer
  dsimp only
  rw [h]
  simp

/-- Witness for the amended C1 in the counterexample environment. -/
theorem claim_C1_amended_witness :
    generate_answer cexEnvC1 (['q'])
      = synthesize_final_answer cexEnvC1.synthLLM (['q'])
          [envAnswerFallback cexEnvC1 (['q']) (extract_year_from_query (['q']))] :=
  claim_C1_amended_always_synthesizes cexEnvC1 (['q']) (by decide)

/-- Witness for C3 on the one-document fixture corpus with a contract-
respecting embedding oracle. -/
theorem claim_C3_witness :
    (ingestDocs docsW).metadata.map Prod.fst
      = (List.range (ingestDocs docsW).all_chunks.length).map
          (fun n => (toString n).toList) ∧
    (ingestDocs docsW).metadata.map (fun e => e.2.text)
      = (ingestDocs docsW).all_chunks.map (fun c => c.take 4000) ∧
    (embed_texts ebW (ingestDocs docsW).all_chunks 100).length
        = (ingestDocs docsW).all_chunks.length ∧
    (ingestDocs docsW).metadata.length = (ingestDocs docsW).all_chunks.length ∧
    (build_index (embed_texts ebW (ingestDocs docsW).all_chunks 100)
        (ingestDocs docsW).metadata).1.length
      = (build_index (embed_texts ebW (ingestDocs docsW).all_chunks 100)
        (ingestDocs docsW).metadata).2.length :=
  claim_C3_ingest_parity docsW ebW
    (by
      intro b r h
      unfold ebW at h
      injection h with h
      rw [← h, List.length_map])

/-- Witness for C6 at two texts and batch size 100, with the same oracle. -/
theorem claim_C6_witness :
    (embed_texts ebW [['a'], ['b']] 100).length = 2 ∧
    embed_texts (fun _ => none) [['a'], ['b']] 100
      = List.replicate 2 zeroVec3072 ∧
    (∀ t rest, ([['a'], ['b']] : List (List Char)) = t :: rest →
      ebW ([['a'], ['b']].take 100) = none →
      (embed_texts ebW [['a'], ['b']] 100).take ([['a'], ['b']].take 100).length
        = List.replicate ([['a'], ['b']].take 100).length zeroVec3072) :=
  claim_C6_embed_texts_parity ebW [['a'], ['b']] 100 (by decide)
    (by
      intro b r h
      unfold ebW at h
      injection h with h
      rw [← h, List.length_map])

end FinRag
